import Mathlib

/-!
Shallow embedding of the puddle core sources:
  src/core/src/grid/location.rs     (Location, Rectangle, FromStr for Location)
  src/core/src/process/process.rs   (Process, DropletId allocation, plan, flush)
  src/core/src/bin/pi-test.rs       (the `circle` diagnostic)
Machine integers `i32` are modelled as `Int` and `usize` as `Nat`; the
coordinates this system manipulates are small grid indices, far from the
i32 range, and no arithmetic in the embedded fragments relies on wraparound.
Rust panics (`panic!`, `unimplemented!`, `unwrap` failures) are modelled as
an explicit outcome constructor, distinct from returned error values.
-/

namespace Puddle

/-- From location.rs: `pub struct Location { pub y: i32, pub x: i32 }`. -/
structure Location where
  y : Int
  x : Int
deriving DecidableEq

/-- From location.rs: derived `Add` adds componentwise (derive_more::Add). -/
instance : Add Location where
  add a b := ⟨a.y + b.y, a.x + b.x⟩

/-- From location.rs: derived `Sub` subtracts componentwise (derive_more::Sub). -/
instance : Sub Location where
  sub a b := ⟨a.y - b.y, a.x - b.x⟩

/-- From location.rs: `norm(self) = (self.y.abs() + self.x.abs()) as u32`. -/
def Location.norm (l : Location) : Nat :=
  l.y.natAbs + l.x.natAbs

/-- From location.rs: `distance_to(self, other) = (self - other).norm()`. -/
def Location.distance_to (a other : Location) : Nat :=
  (a - other).norm

/-- From location.rs: `north` returns the cell one row up. -/
def Location.north (l : Location) : Location := ⟨l.y - 1, l.x⟩

/-- From location.rs: `west` returns the cell one column left. -/
def Location.west (l : Location) : Location := ⟨l.y, l.x - 1⟩

/-- From location.rs: `south` returns the cell one row down. -/
def Location.south (l : Location) : Location := ⟨l.y + 1, l.x⟩

/-- From location.rs: `east` returns the cell one column right. -/
def Location.east (l : Location) : Location := ⟨l.y, l.x + 1⟩

/-- From location.rs: `pub struct Rectangle { location, dimensions }`. -/
structure Rectangle where
  location : Location
  dimensions : Location
deriving DecidableEq

/-- From location.rs: `top_edge = self.location.y`. -/
def Rectangle.top_edge (r : Rectangle) : Int := r.location.y

/-- From location.rs: `bottom_edge = self.location.y + self.dimensions.y`. -/
def Rectangle.bottom_edge (r : Rectangle) : Int := r.location.y + r.dimensions.y

/-- From location.rs: `left_edge = self.location.x`. -/
def Rectangle.left_edge (r : Rectangle) : Int := r.location.x

/-- From location.rs: `right_edge = self.location.x + self.dimensions.x`. -/
def Rectangle.right_edge (r : Rectangle) : Int := r.location.x + r.dimensions.x

/-- From location.rs, the helper inside `collision_distance`:
`if (a < 0) == (b < 0) { i32::min(a.abs(), b.abs()) } else { -i32::min(a.abs(), b.abs()) }`. -/
def signed_min (a b : Int) : Int :=
  if (a < 0) ↔ (b < 0) then min |a| |b| else -(min |a| |b|)

/-- From location.rs: `collision_distance` is `y_dist.max(x_dist)` where
`y_dist`/`x_dist` are the per-axis `signed_min` of the two edge differences
(the source's two `let` bindings are inlined). -/
def Rectangle.collision_distance (r other : Rectangle) : Int :=
  max (signed_min (r.bottom_edge - other.top_edge) (r.top_edge - other.bottom_edge))
      (signed_min (r.right_edge - other.left_edge) (r.left_edge - other.right_edge))

/-- Rust's `0..n` iterator for an `i32` bound `n`: the integers
`0, 1, ..., n-1`, empty when `n <= 0`. -/
def intRange (n : Int) : List Int :=
  (List.range n.toNat).map Int.ofNat

/-- From location.rs: `locations()` iterates `ys = 0..dim.y` and for each `y`
maps `xs = 0..dim.x` to `base + Location { y, x }` (row-major flat_map). -/
def Rectangle.locations (r : Rectangle) : List Location :=
  (intRange r.dimensions.y).flatMap fun y =>
    (intRange r.dimensions.x).map fun x => r.location + Location.mk y x

/-! Interval geometry stated from the spec's words, used to express what
`collision_distance` means. These definitions are deliberately independent
of `signed_min`. -/

/-- Spec-side: the projections of the two rectangles on the y axis strictly
overlap (they share at least one unit row). -/
def yOverlaps (a b : Rectangle) : Prop :=
  b.top_edge < a.bottom_edge ∧ a.top_edge < b.bottom_edge

/-- Spec-side: the projections of the two rectangles on the x axis strictly
overlap (they share at least one unit column). -/
def xOverlaps (a b : Rectangle) : Prop :=
  b.left_edge < a.right_edge ∧ a.left_edge < b.right_edge

/-- Spec-side: the two rectangles cover at least one common grid cell. -/
def cellOverlap (a b : Rectangle) : Prop :=
  ∃ l ∈ a.locations, l ∈ b.locations

/-- Spec-side: the closed outlines of the two rectangles intersect (they
overlap, or touch along an edge or at a corner). -/
def closuresIntersect (a b : Rectangle) : Prop :=
  a.top_edge ≤ b.bottom_edge ∧ b.top_edge ≤ a.bottom_edge ∧
  a.left_edge ≤ b.right_edge ∧ b.left_edge ≤ a.right_edge

/-- Spec-side: the signed distance between the y projections, as distance
between closed integer intervals: positive = gap, zero = touching,
negative = overlap. -/
def ySep (a b : Rectangle) : Int :=
  max (b.top_edge - a.bottom_edge) (a.top_edge - b.bottom_edge)

/-- Spec-side: the signed distance between the x projections. -/
def xSep (a b : Rectangle) : Int :=
  max (b.left_edge - a.right_edge) (a.left_edge - b.right_edge)

instance (a b : Rectangle) : Decidable (yOverlaps a b) :=
  inferInstanceAs (Decidable (_ ∧ _))

instance (a b : Rectangle) : Decidable (xOverlaps a b) :=
  inferInstanceAs (Decidable (_ ∧ _))

instance (a b : Rectangle) : Decidable (cellOverlap a b) :=
  inferInstanceAs (Decidable (∃ l ∈ _, _))

instance (a b : Rectangle) : Decidable (closuresIntersect a b) :=
  inferInstanceAs (Decidable (_ ∧ _))

/-- Spec-side row-major order on cells: earlier row first, then earlier
column within a row. -/
def rowMajorLT (a b : Location) : Prop :=
  a.y < b.y ∨ (a.y = b.y ∧ a.x < b.x)

instance (a b : Location) : Decidable (rowMajorLT a b) :=
  inferInstanceAs (Decidable (_ ∨ _))

/-! Embedding of `impl FromStr for Location` (location.rs).  Rust strings are
modelled as `List Char`; `str::trim` is modelled with `Char.isWhitespace`
(the inputs of interest are ASCII). -/

/-- From location.rs: the predicate of `trim_matches(|p| p == '(' || p == ')')`. -/
def isLocationParen (c : Char) : Bool :=
  c = '(' || c = ')'

/-- Rust's `trim_matches`-style trimming: drop matching characters from both
ends of the character list. -/
def trimEndsWhile (p : Char → Bool) (l : List Char) : List Char :=
  ((l.dropWhile p).reverse.dropWhile p).reverse

/-- The error kinds of Rust's `std::num::ParseIntError` relevant to `i32`. -/
inductive ParseIntErrorKind where
  | empty
  | invalidDigit
  | posOverflow
  | negOverflow
deriving DecidableEq

/-- Decimal value of a digit list (used only on all-digit lists). -/
def digitsToNat (ds : List Char) : Nat :=
  ds.foldl (fun acc c => acc * 10 + (c.toNat - '0'.toNat)) 0

/-- Rust's `str::parse::<i32>()`: optional sign, then one or more ASCII
digits; empty input, stray characters and out-of-range values are errors. -/
def parseI32 (cs : List Char) : Except ParseIntErrorKind Int :=
  match cs with
  | [] => Except.error ParseIntErrorKind.empty
  | c :: rest =>
    let digits := if c = '-' ∨ c = '+' then rest else cs
    if digits.isEmpty then Except.error ParseIntErrorKind.invalidDigit
    else if digits.all (fun d => d.isDigit) then
      let v := digitsToNat digits
      if c = '-' then
        if v ≤ 2 ^ 31 then Except.ok (-(v : Int))
        else Except.error ParseIntErrorKind.negOverflow
      else
        if v ≤ 2 ^ 31 - 1 then Except.ok (v : Int)
        else Except.error ParseIntErrorKind.posOverflow
    else Except.error ParseIntErrorKind.invalidDigit

/-- The possible outcomes of `Location::from_str`: a parsed location, a
returned `ParseIntError`, or a Rust panic (`panic!` is not a return value). -/
inductive FromStrOutcome where
  | ok (l : Location)
  | err (e : ParseIntErrorKind)
  | panicked
deriving DecidableEq

/-- From location.rs:
`s.trim().trim_matches(|p| p == '(' || p == ')').split(',').map(|s| s.trim()).collect()`. -/
def locationCoords (s : List Char) : List (List Char) :=
  ((trimEndsWhile isLocationParen
        (trimEndsWhile (fun c => c.isWhitespace) s)).splitOn ',').map
    (trimEndsWhile (fun c => c.isWhitespace))

/-- From location.rs, `Location::from_str`: panics when the comma-split does
not have exactly two pieces, otherwise parses both pieces with `?`. -/
def location_from_str (s : List Char) : FromStrOutcome :=
  match locationCoords s with
  | [cy, cx] =>
    match parseI32 cy with
    | Except.error e => FromStrOutcome.err e
    | Except.ok y =>
      match parseI32 cx with
      | Except.error e => FromStrOutcome.err e
      | Except.ok x => FromStrOutcome.ok ⟨y, x⟩
  | _ => FromStrOutcome.panicked

/-! Embedding of process.rs. -/

/-- Modelled from the spec: `DropletId` is `{id: usize, process_id: usize}`
(declared in the grid module, which is not among the sources; its shape is
fixed by the spec's data model and by its construction in process.rs and
pi-test.rs). -/
structure DropletId where
  id : Nat
  process_id : Nat
deriving DecidableEq

/-- Modelled from the spec: `PlanError` is the planner's failure value; its
internal structure is irrelevant to the claims below. -/
inductive PlanError where
  | planFailed
deriving DecidableEq

/-- Modelled from the spec: a `DropletInfo` is the loggable record of a live
droplet (location, volume and other observable state); only its existence
matters to the claims below, floats are elided. -/
structure DropletInfo where
  id : DropletId
  location : Location
deriving DecidableEq

/-- Modelled from the spec: the closed command variant set
`{Create, Input, Output, Move, Combine, Agitate, Split, Heat, Flush}`;
argument payloads are elided except the flushing process id, which is what
process.rs passes. -/
inductive Command where
  | create
  | input
  | output
  | move
  | combine
  | agitate
  | split
  | heat
  | flush (pid : Nat)
deriving DecidableEq

/-- From process.rs: `pub enum PuddleError { PlanError, NonExistentDropletId,
NonExistentProcess }`. -/
inductive PuddleError where
  | PlanError (e : PlanError)
  | NonExistentDropletId (id : Nat)
  | NonExistentProcess (pid : Nat)
deriving DecidableEq

/-- Outcome of a Rust call that can return `Ok`, return `Err`, or panic. -/
inductive Outcome (α : Type) where
  | ok (a : α)
  | err (e : PuddleError)
  | panicked

/-- Modelled from the spec: the shared `GridView` state.  Its contents do not
affect any claim below, because `Process::plan` never reaches it. -/
structure GridView where
  unit : Unit

/-- From process.rs: `struct Process { id, name, next_droplet_id, gridview }`. -/
structure Process where
  id : Nat
  name : String
  next_droplet_id : Nat
  gridview : GridView

/-- From process.rs: `Process::new` takes the next value of the global
`NEXT_PROCESS_ID` counter (modelled by explicit state passing: the second
component is the counter after the `fetch_add`). -/
def Process.new (name : String) (gridview : GridView) (next_process_id : Nat) :
    Process × Nat :=
  (⟨next_process_id, name, 0, gridview⟩, next_process_id + 1)

/-- From process.rs: `new_droplet_id` reads and increments the per-process
counter and pairs it with the process id. -/
def Process.new_droplet_id (p : Process) : DropletId × Process :=
  (⟨p.next_droplet_id, p.id⟩, ⟨p.id, p.name, p.next_droplet_id + 1, p.gridview⟩)

/-- The process state after `n` successive `new_droplet_id` calls. -/
def allocAfter (p : Process) : Nat → Process
  | 0 => p
  | n + 1 => (allocAfter p n).new_droplet_id.2

/-- The `DropletId` returned by the `(n+1)`-th `new_droplet_id` call on `p`. -/
def dropletIdAt (p : Process) (n : Nat) : DropletId :=
  (allocAfter p n).new_droplet_id.1

/-- From process.rs: `Process::plan` is literally `unimplemented!()` (the
intended body is commented out behind a FIXME), so every call panics. -/
def Process.plan (_p : Process) (_cmd : Command) : Outcome Unit :=
  Outcome.panicked

/-- From process.rs: `flush` submits a `Flush` command via `plan` (with `?`),
then waits on the one-shot channel and maps a planner error into
`PuddleError::PlanError`.  The channel reply is passed explicitly. -/
def Process.flush (p : Process) (reply : Except PlanError (List DropletInfo)) :
    Outcome (List DropletInfo) :=
  match p.plan (Command.flush p.id) with
  | Outcome.panicked => Outcome.panicked
  | Outcome.err e => Outcome.err e
  | Outcome.ok _ =>
    match reply with
    | Except.ok infos => Outcome.ok infos
    | Except.error e => Outcome.err (PuddleError.PlanError e)

/-! Embedding of the `circle` subcommand of pi-test.rs.  The closure
`set(yo, xo)` writes `Location { y: location.y + yo, x: location.x + xo }`
into the droplet; one pass of the `loop` body writes the following list of
locations, in order of the four `for` loops. -/

/-- From pi-test.rs: the locations written to the droplet during one lap of
the `circle` diagnostic's main loop, in write order. -/
def circleLap (location size : Location) : List Location :=
  ((intRange size.x).map fun xo => Location.mk (location.y + xo) (location.x + 0)) ++
  (((intRange size.y).map fun yo =>
    Location.mk (location.y + (size.x - 1)) (location.x + yo)) ++
  (((intRange size.x).map fun xo =>
    Location.mk (location.y + (size.x - 1 - xo)) (location.x + (size.y - 1))) ++
  ((intRange size.y).map fun yo =>
    Location.mk (location.y + 0) (location.x + (size.y - 1 - yo)))))

/-! Helper lemmas. -/

theorem Location.eq_iff (a b : Location) : a = b ↔ a.y = b.y ∧ a.x = b.x := by
  cases a
  cases b
  simp

@[simp] theorem Location.add_y (a b : Location) : (a + b).y = a.y + b.y := rfl

@[simp] theorem Location.add_x (a b : Location) : (a + b).x = a.x + b.x := rfl

@[simp] theorem Location.sub_y (a b : Location) : (a - b).y = a.y - b.y := rfl

@[simp] theorem Location.sub_x (a b : Location) : (a - b).x = a.x - b.x := rfl

@[simp] theorem mem_intRange (a : Int) (n : Int) : a ∈ intRange n ↔ 0 ≤ a ∧ a < n := by
  simp only [intRange, List.mem_map, List.mem_range, Int.ofNat_eq_coe]
  constructor
  · rintro ⟨i, hi, rfl⟩
    omega
  · intro h
    exact ⟨a.toNat, by omega, by omega⟩

theorem mem_locations (r : Rectangle) (l : Location) :
    l ∈ r.locations ↔
      r.location.y ≤ l.y ∧ l.y < r.bottom_edge ∧
      r.location.x ≤ l.x ∧ l.x < r.right_edge := by
  simp only [Rectangle.locations, List.mem_flatMap, List.mem_map, mem_intRange,
    Rectangle.bottom_edge, Rectangle.right_edge]
  constructor
  · rintro ⟨y, hy, x, hx, rfl⟩
    simp only [Location.add_y, Location.add_x]
    omega
  · rintro ⟨h1, h2, h3, h4⟩
    refine ⟨l.y - r.location.y, by omega, l.x - r.location.x, by omega, ?_⟩
    rw [Location.eq_iff]
    simp only [Location.add_y, Location.add_x]
    omega

theorem signed_min_eq_max_neg (a b : Int) (h : b ≤ a) :
    signed_min a b = max (-a) b := by
  unfold signed_min
  simp only [Int.abs_eq_natAbs]
  split <;> omega

theorem signed_min_neg_swap (a b : Int) : signed_min (-b) (-a) = signed_min a b := by
  unfold signed_min
  simp only [Int.abs_eq_natAbs]
  split <;> split <;> omega

theorem mem_locations_mk (r : Rectangle) (ly lx : Int) :
    Location.mk ly lx ∈ r.locations ↔
      r.location.y ≤ ly ∧ ly < r.location.y + r.dimensions.y ∧
      r.location.x ≤ lx ∧ lx < r.location.x + r.dimensions.x := by
  rw [mem_locations]
  rfl

theorem cellOverlap_iff (a b : Rectangle)
    (hay : 0 < a.dimensions.y) (hax : 0 < a.dimensions.x)
    (hby : 0 < b.dimensions.y) (hbx : 0 < b.dimensions.x) :
    cellOverlap a b ↔ yOverlaps a b ∧ xOverlaps a b := by
  unfold cellOverlap yOverlaps xOverlaps
  simp only [Rectangle.top_edge, Rectangle.bottom_edge, Rectangle.left_edge,
    Rectangle.right_edge]
  constructor
  · rintro ⟨l, hla, hlb⟩
    rw [mem_locations] at hla hlb
    simp only [Rectangle.bottom_edge, Rectangle.right_edge] at hla hlb
    omega
  · intro h
    rcases le_total a.location.y b.location.y with h1 | h1 <;>
      rcases le_total a.location.x b.location.x with h2 | h2
    · exact ⟨⟨b.location.y, b.location.x⟩, (mem_locations_mk a _ _).2 (by omega),
        (mem_locations_mk b _ _).2 (by omega)⟩
    · exact ⟨⟨b.location.y, a.location.x⟩, (mem_locations_mk a _ _).2 (by omega),
        (mem_locations_mk b _ _).2 (by omega)⟩
    · exact ⟨⟨a.location.y, b.location.x⟩, (mem_locations_mk a _ _).2 (by omega),
        (mem_locations_mk b _ _).2 (by omega)⟩
    · exact ⟨⟨a.location.y, a.location.x⟩, (mem_locations_mk a _ _).2 (by omega),
        (mem_locations_mk b _ _).2 (by omega)⟩

theorem intRange_pairwise_lt (n : Int) : List.Pairwise (· < ·) (intRange n) := by
  unfold intRange
  rw [List.pairwise_map]
  exact (List.pairwise_lt_range n.toNat).imp fun h => Int.ofNat_lt.mpr h

theorem rowMajorLT_ne (u v : Location) (h : rowMajorLT u v) : u ≠ v := by
  intro heq
  subst heq
  unfold rowMajorLT at h
  omega

/-! Theorems settling the claims. -/

/-- C2: for every pair of rectangles `a` and `b`,
`a.collision_distance(b) == b.collision_distance(a)`. -/
theorem collision_distance_symm (a b : Rectangle) :
    a.collision_distance b = b.collision_distance a := by
  unfold Rectangle.collision_distance
  rw [show b.bottom_edge - a.top_edge = -(a.top_edge - b.bottom_edge) by ring,
    show b.top_edge - a.bottom_edge = -(a.bottom_edge - b.top_edge) by ring,
    show b.right_edge - a.left_edge = -(a.left_edge - b.right_edge) by ring,
    show b.left_edge - a.right_edge = -(a.right_edge - b.left_edge) by ring,
    signed_min_neg_swap, signed_min_neg_swap]

/-- C8: `distance_to` is the Manhattan distance `|a.y - b.y| + |a.x - b.x|`
and `norm` is the Manhattan length `|l.y| + |l.x|`. -/
theorem distance_norm_manhattan (a b l : Location) :
    (a.distance_to b : Int) = |a.y - b.y| + |a.x - b.x| ∧
    (l.norm : Int) = |l.y| + |l.x| := by
  unfold Location.distance_to Location.norm
  constructor <;>
    (simp only [Location.sub_y, Location.sub_x, Int.abs_eq_natAbs]
     push_cast
     omega)

/-- C10: a rectangle with a zero or negative dimension component covers no
cells: `locations()` is the empty sequence (and, being a total function of
the dimensions, it never panics). -/
theorem locations_nil_of_nonpos (r : Rectangle)
    (h : r.dimensions.y ≤ 0 ∨ r.dimensions.x ≤ 0) : r.locations = [] := by
  rw [List.eq_nil_iff_forall_not_mem]
  intro l hl
  rw [mem_locations] at hl
  simp only [Rectangle.bottom_edge, Rectangle.right_edge] at hl
  omega

/-- Witness for C10 at the concrete dimensions `(0, 5)`. -/
theorem locations_nil_of_nonpos_witness :
    ((Rectangle.mk ⟨3, 4⟩ ⟨0, 5⟩).dimensions.y ≤ 0 ∨
      (Rectangle.mk ⟨3, 4⟩ ⟨0, 5⟩).dimensions.x ≤ 0) ∧
    (Rectangle.mk ⟨3, 4⟩ ⟨0, 5⟩).locations = [] :=
  ⟨Or.inl (by decide), locations_nil_of_nonpos _ (Or.inl (by decide))⟩

/-- C7: for positive dimensions, `locations()` contains exactly the cells
`location + (y, x)` with `0 <= y < dim.y`, `0 <= x < dim.x`, each exactly
once, in row-major order. -/
theorem locations_row_major (r : Rectangle)
    (hy : 0 < r.dimensions.y) (hx : 0 < r.dimensions.x) :
    (∀ l : Location, l ∈ r.locations ↔
      ∃ y x : Int, 0 ≤ y ∧ y < r.dimensions.y ∧ 0 ≤ x ∧ x < r.dimensions.x ∧
        l = r.location + Location.mk y x) ∧
    List.Pairwise rowMajorLT r.locations ∧
    r.locations.Nodup := by
  have hpw : List.Pairwise rowMajorLT r.locations := by
    unfold Rectangle.locations
    rw [List.pairwise_flatMap]
    constructor
    · intro y _
      rw [List.pairwise_map]
      refine (intRange_pairwise_lt _).imp ?_
      intro x1 x2 h12
      exact Or.inr ⟨by simp only [Location.add_y], by simp only [Location.add_x]; omega⟩
    · refine (intRange_pairwise_lt _).imp ?_
      intro y1 y2 h12 u hu v hv
      simp only [List.mem_map] at hu hv
      obtain ⟨x1, hx1, rfl⟩ := hu
      obtain ⟨x2, hx2, rfl⟩ := hv
      exact Or.inl (by simp only [Location.add_y]; omega)
  refine ⟨?_, hpw, hpw.imp fun h => rowMajorLT_ne _ _ h⟩
  intro l
  rw [mem_locations]
  simp only [Rectangle.bottom_edge, Rectangle.right_edge]
  constructor
  · intro h
    refine ⟨l.y - r.location.y, l.x - r.location.x, by omega, by omega, by omega, by omega, ?_⟩
    rw [Location.eq_iff]
    simp only [Location.add_y, Location.add_x]
    omega
  · rintro ⟨y, x, h1, h2, h3, h4, rfl⟩
    simp only [Location.add_y, Location.add_x]
    omega

/-- C1 counterexample: for the unit squares at `(0,0)` and `(2,0)` both
y-axis candidate separations (`a.bottom - b.top` and `a.top - b.bottom`)
are negative, yet the rectangles do not overlap (on the y axis or at all)
and the collision distance is positive `1` — refuting the claim's reading
that both candidates negative means overlap. -/
theorem collision_distance_candidates_counterexample :
    (Rectangle.mk ⟨0, 0⟩ ⟨1, 1⟩).bottom_edge - (Rectangle.mk ⟨2, 0⟩ ⟨1, 1⟩).top_edge < 0 ∧
    (Rectangle.mk ⟨0, 0⟩ ⟨1, 1⟩).top_edge - (Rectangle.mk ⟨2, 0⟩ ⟨1, 1⟩).bottom_edge < 0 ∧
    ¬ yOverlaps (Rectangle.mk ⟨0, 0⟩ ⟨1, 1⟩) (Rectangle.mk ⟨2, 0⟩ ⟨1, 1⟩) ∧
    ¬ cellOverlap (Rectangle.mk ⟨0, 0⟩ ⟨1, 1⟩) (Rectangle.mk ⟨2, 0⟩ ⟨1, 1⟩) ∧
    (Rectangle.mk ⟨0, 0⟩ ⟨1, 1⟩).collision_distance (Rectangle.mk ⟨2, 0⟩ ⟨1, 1⟩) = 1 := by
  decide

/-- C1 (amended): for rectangles with positive dimensions,
`collision_distance` is the max of the per-axis signed interval distances;
a per-axis value is negative exactly when the projections on that axis
strictly overlap; the total is negative iff the rectangles share a cell,
zero iff their closed outlines touch without sharing a cell, positive iff
the closed outlines are disjoint, in which case it equals the separation
along the binding axis; when negative, its magnitude is the least
single-axis translation that removes the overlap. -/
theorem collision_distance_semantics (a b : Rectangle)
    (hay : 0 < a.dimensions.y) (hax : 0 < a.dimensions.x)
    (hby : 0 < b.dimensions.y) (hbx : 0 < b.dimensions.x) :
    a.collision_distance b = max (ySep a b) (xSep a b) ∧
    (ySep a b < 0 ↔ yOverlaps a b) ∧
    (xSep a b < 0 ↔ xOverlaps a b) ∧
    (a.collision_distance b < 0 ↔ cellOverlap a b) ∧
    (a.collision_distance b = 0 ↔ closuresIntersect a b ∧ ¬ cellOverlap a b) ∧
    (0 < a.collision_distance b ↔ ¬ closuresIntersect a b) ∧
    (0 < a.collision_distance b →
      a.collision_distance b = ySep a b ∨ a.collision_distance b = xSep a b) ∧
    (a.collision_distance b < 0 →
      -(a.collision_distance b) =
        min (min (a.bottom_edge - b.top_edge) (b.bottom_edge - a.top_edge))
            (min (a.right_edge - b.left_edge) (b.right_edge - a.left_edge))) := by
  have hcd : a.collision_distance b = max (ySep a b) (xSep a b) := by
    unfold Rectangle.collision_distance ySep xSep
    rw [signed_min_eq_max_neg _ _ (by
        simp only [Rectangle.top_edge, Rectangle.bottom_edge]
        omega),
      signed_min_eq_max_neg _ _ (by
        simp only [Rectangle.left_edge, Rectangle.right_edge]
        omega),
      neg_sub, neg_sub]
  rw [cellOverlap_iff a b hay hax hby hbx]
  refine ⟨hcd, ?_, ?_, ?_, ?_, ?_, ?_, ?_⟩ <;>
    (simp only [hcd, ySep, xSep, yOverlaps, xOverlaps, closuresIntersect,
       Rectangle.top_edge, Rectangle.bottom_edge, Rectangle.left_edge, Rectangle.right_edge]
     omega)

/-- Witness for C1 (amended) at the spec's own overlapping example:
a `(2,2)` rectangle at `(0,4)` against a `(1,3)` rectangle at `(1,5)`. -/
theorem collision_distance_semantics_witness :
    (0 : Int) < 2 ∧ (0 : Int) < 2 ∧ (0 : Int) < 1 ∧ (0 : Int) < 3 ∧
    ((Rectangle.mk ⟨0, 4⟩ ⟨2, 2⟩).collision_distance (Rectangle.mk ⟨1, 5⟩ ⟨1, 3⟩) < 0 ↔
      cellOverlap (Rectangle.mk ⟨0, 4⟩ ⟨2, 2⟩) (Rectangle.mk ⟨1, 5⟩ ⟨1, 3⟩)) :=
  ⟨by decide, by decide, by decide, by decide,
    (collision_distance_semantics _ _ (by decide) (by decide) (by decide)
      (by decide)).2.2.2.1⟩

/-- Witness for C7 at a concrete `2 x 2` rectangle. -/
theorem locations_row_major_witness :
    (0 : Int) < 2 ∧ (0 : Int) < 2 ∧
    (List.Pairwise rowMajorLT (Rectangle.mk ⟨0, 0⟩ ⟨2, 2⟩).locations ∧
      (Rectangle.mk ⟨0, 0⟩ ⟨2, 2⟩).locations.Nodup) :=
  ⟨by decide, by decide, (locations_row_major _ (by decide) (by decide)).2⟩

/-- C5 counterexample: parsing `"3,-2"` does not fail — the parentheses are
only trimmed, never required, so it succeeds with `Location{y:3, x:-2}`. -/
theorem from_str_loose_parse_counterexample :
    location_from_str ("3,-2".toList) = FromStrOutcome.ok ⟨3, -2⟩ := by
  decide

/-- C5 (amended): `"(3, -2)"` parses to `Location{y:3, x:-2}`; `"3,-2"` also
parses (to the same location) because the surrounding parentheses are
optional; `"(3)"` panics (it does not return an error value). -/
theorem from_str_examples :
    location_from_str ("(3, -2)".toList) = FromStrOutcome.ok ⟨3, -2⟩ ∧
    location_from_str ("3,-2".toList) = FromStrOutcome.ok ⟨3, -2⟩ ∧
    location_from_str ("(3)".toList) = FromStrOutcome.panicked := by
  decide

/-- C4 counterexample: `"(3)"` is not of the `"(y, x)"` form, yet
`from_str` panics on it instead of returning a parse error value. -/
theorem from_str_malformed_counterexample :
    location_from_str ("(3)".toList) = FromStrOutcome.panicked ∧
    ∀ e : ParseIntErrorKind, location_from_str ("(3)".toList) ≠ FromStrOutcome.err e := by
  refine ⟨by decide, ?_⟩
  intro e h
  rw [show location_from_str ("(3)".toList) = FromStrOutcome.panicked by decide] at h
  exact FromStrOutcome.noConfusion h

/-- C4 (amended): when the trimmed, parenthesis-stripped input splits on
commas into exactly two fields, a field that is not a valid `i32` yields a
returned parse error (the first failing field's error); when the split does
not have exactly two fields, `from_str` panics instead of returning an
error; when both fields parse, the result is `Ok` (so parentheses and the
`"(y, x)"` shape are not actually required). -/
theorem from_str_error_semantics (s : List Char) :
    ((locationCoords s).length ≠ 2 → location_from_str s = FromStrOutcome.panicked) ∧
    (∀ cy cx, locationCoords s = [cy, cx] →
      (∀ e, parseI32 cy = Except.error e → location_from_str s = FromStrOutcome.err e) ∧
      (∀ y e, parseI32 cy = Except.ok y → parseI32 cx = Except.error e →
        location_from_str s = FromStrOutcome.err e) ∧
      (∀ y x, parseI32 cy = Except.ok y → parseI32 cx = Except.ok x →
        location_from_str s = FromStrOutcome.ok ⟨y, x⟩)) := by
  constructor
  · intro hlen
    unfold location_from_str
    rcases hC : locationCoords s with _ | ⟨cy, _ | ⟨cx, _ | _⟩⟩ <;>
      first
        | rfl
        | (exact absurd (by rw [hC]; rfl) hlen)
  · intro cy cx hC
    refine ⟨?_, ?_, ?_⟩
    · intro e he
      simp only [location_from_str, hC, he]
    · intro y e hy he
      simp only [location_from_str, hC, hy, he]
    · intro y x hy hx
      simp only [location_from_str, hC, hy, hx]

/-- Witness for C4 (amended): `"(a, 2)"` splits into two fields and the
first field fails integer parsing, so `from_str` returns that error. -/
theorem from_str_error_semantics_witness :
    locationCoords ("(a, 2)".toList) = ["a".toList, "2".toList] ∧
    parseI32 ("a".toList) = Except.error ParseIntErrorKind.invalidDigit ∧
    location_from_str ("(a, 2)".toList) = FromStrOutcome.err ParseIntErrorKind.invalidDigit :=
  ⟨rfl, rfl,
    ((from_str_error_semantics ("(a, 2)".toList)).2 ("a".toList) ("2".toList) rfl).1
      ParseIntErrorKind.invalidDigit rfl⟩

/-- C3 (code bug): `Process::plan` is `unimplemented!()`, so `flush` — and
with it every Process operation — panics instead of reporting a
recoverable error through its `Result`. -/
theorem flush_and_plan_panic :
    (∀ (p : Process) (reply : Except PlanError (List DropletInfo)),
      Process.flush p reply = Outcome.panicked) ∧
    (∀ (p : Process) (cmd : Command), Process.plan p cmd = Outcome.panicked) :=
  ⟨fun _ _ => rfl, fun _ _ => rfl⟩

theorem allocAfter_id (p : Process) (n : Nat) : (allocAfter p n).id = p.id := by
  induction n with
  | zero => rfl
  | succ n ih => simp only [allocAfter, Process.new_droplet_id, ih]

theorem allocAfter_next (p : Process) (n : Nat) :
    (allocAfter p n).next_droplet_id = p.next_droplet_id + n := by
  induction n with
  | zero => rfl
  | succ n ih =>
    simp only [allocAfter, Process.new_droplet_id, ih]
    omega

theorem dropletIdAt_eq (p : Process) (n : Nat) :
    dropletIdAt p n = ⟨p.next_droplet_id + n, p.id⟩ := by
  unfold dropletIdAt Process.new_droplet_id
  simp only [DropletId.mk.injEq]
  exact ⟨allocAfter_next p n, allocAfter_id p n⟩

/-- C6: droplet ids issued by processes with distinct process ids are always
distinct; within one process the `id` component strictly increases with
each allocation; and successive `Process::new` calls on the shared counter
assign distinct process ids — so uniqueness needs no cross-process
coordination. -/
theorem droplet_ids_unique (p q : Process) (hpq : p.id ≠ q.id) (m n : Nat) :
    dropletIdAt p m ≠ dropletIdAt q n ∧
    (∀ k l : Nat, k < l → (dropletIdAt p k).id < (dropletIdAt p l).id) ∧
    (∀ (nm1 nm2 : String) (gv1 gv2 : GridView) (c : Nat),
      (Process.new nm1 gv1 c).1.id ≠
        (Process.new nm2 gv2 (Process.new nm1 gv1 c).2).1.id) := by
  refine ⟨?_, ?_, ?_⟩
  · intro h
    rw [dropletIdAt_eq, dropletIdAt_eq] at h
    exact hpq (congrArg DropletId.process_id h)
  · intro k l hkl
    rw [dropletIdAt_eq, dropletIdAt_eq]
    simpa using hkl
  · intro nm1 nm2 gv1 gv2 c
    simp [Process.new]

/-- Witness for C6 with two concrete processes of ids 0 and 1. -/
theorem droplet_ids_unique_witness :
    (Process.mk 0 "" 0 ⟨()⟩).id ≠ (Process.mk 1 "" 0 ⟨()⟩).id ∧
    dropletIdAt (Process.mk 0 "" 0 ⟨()⟩) 0 ≠ dropletIdAt (Process.mk 1 "" 0 ⟨()⟩) 0 :=
  ⟨by decide, (droplet_ids_unique _ _ (by decide) 0 0).1⟩

theorem chain'_map_intRange (f : Int → Location) (n : Int)
    (h : ∀ i : Int, 0 ≤ i → i + 1 < n → (f i).distance_to (f (i + 1)) ≤ 1) :
    List.Chain' (fun a b => a.distance_to b ≤ 1) ((intRange n).map f) := by
  unfold intRange
  rw [List.map_map, List.chain'_map]
  cases hk : n.toNat with
  | zero => simp
  | succ m =>
    rw [List.chain'_range_succ]
    intro i hi
    show ((f ∘ Int.ofNat) i).distance_to ((f ∘ Int.ofNat) (i + 1)) ≤ 1
    simp only [Function.comp_apply, Int.ofNat_eq_coe]
    have hcast : ((i + 1 : Nat) : Int) = (i : Int) + 1 := by push_cast; ring
    rw [hcast]
    exact h i (by omega) (by omega)

theorem head?_map_intRange (f : Int → Location) (n : Int) (h : 0 < n) :
    ((intRange n).map f).head? = some (f 0) := by
  unfold intRange
  rw [List.map_map]
  cases hk : n.toNat with
  | zero => omega
  | succ m =>
    rw [List.range_succ_eq_map]
    rfl

theorem getLast?_map_intRange (f : Int → Location) (n : Int) (h : 0 < n) :
    ((intRange n).map f).getLast? = some (f (n - 1)) := by
  unfold intRange
  rw [List.map_map]
  cases hk : n.toNat with
  | zero => omega
  | succ m =>
    rw [List.range_succ, List.map_append]
    simp only [List.map_cons, List.map_nil, List.getLast?_concat, Function.comp_apply,
      Int.ofNat_eq_coe]
    have hm : ((m : Nat) : Int) = n - 1 := by omega
    rw [hm]

theorem seam_of_last_head {R : Location → Location → Prop} {o1 o2 : Option Location}
    {u v : Location} (h1 : o1 = some u) (h2 : o2 = some v) (h : R u v) :
    ∀ x ∈ o1, ∀ y ∈ o2, R x y := by
  intro x hx' y hy'
  rw [h1, Option.mem_some_iff] at hx'
  rw [h2, Option.mem_some_iff] at hy'
  subst hx'
  subst hy'
  exact h

/-- C9: during one lap of the `circle` diagnostic (any circle size with
positive components), consecutive locations written to the droplet differ
by Manhattan distance at most one, including the wrap-around from the last
write of a lap to the first write of the next. -/
theorem circle_single_step (location size : Location)
    (hy : 0 < size.y) (hx : 0 < size.x) :
    List.Chain' (fun a b => a.distance_to b ≤ 1) (circleLap location size) ∧
    ∀ a ∈ (circleLap location size).getLast?, ∀ b ∈ (circleLap location size).head?,
      a.distance_to b ≤ 1 := by
  have c1 : List.Chain' (fun a b => a.distance_to b ≤ 1)
      ((intRange size.x).map fun xo => Location.mk (location.y + xo) (location.x + 0)) :=
    chain'_map_intRange _ _ fun i h0 h1 => by
      simp only [Location.distance_to, Location.norm, Location.sub_y, Location.sub_x]
      omega
  have c2 : List.Chain' (fun a b => a.distance_to b ≤ 1)
      ((intRange size.y).map fun yo =>
        Location.mk (location.y + (size.x - 1)) (location.x + yo)) :=
    chain'_map_intRange _ _ fun i h0 h1 => by
      simp only [Location.distance_to, Location.norm, Location.sub_y, Location.sub_x]
      omega
  have c3 : List.Chain' (fun a b => a.distance_to b ≤ 1)
      ((intRange size.x).map fun xo =>
        Location.mk (location.y + (size.x - 1 - xo)) (location.x + (size.y - 1))) :=
    chain'_map_intRange _ _ fun i h0 h1 => by
      simp only [Location.distance_to, Location.norm, Location.sub_y, Location.sub_x]
      omega
  have c4 : List.Chain' (fun a b => a.distance_to b ≤ 1)
      ((intRange size.y).map fun yo =>
        Location.mk (location.y + 0) (location.x + (size.y - 1 - yo))) :=
    chain'_map_intRange _ _ fun i h0 h1 => by
      simp only [Location.distance_to, Location.norm, Location.sub_y, Location.sub_x]
      omega
  constructor
  · unfold circleLap
    rw [List.chain'_append, List.chain'_append, List.chain'_append]
    refine ⟨c1, ⟨c2, ⟨c3, c4, ?_⟩, ?_⟩, ?_⟩
    · -- seam: third segment into fourth
      refine seam_of_last_head (getLast?_map_intRange _ _ hx) (head?_map_intRange _ _ hy) ?_
      simp only [Location.distance_to, Location.norm, Location.sub_y, Location.sub_x]
      omega
    · -- seam: second segment into third ++ fourth
      rw [List.head?_append, head?_map_intRange _ _ hx, Option.or_some]
      refine seam_of_last_head (getLast?_map_intRange _ _ hy) rfl ?_
      simp only [Location.distance_to, Location.norm, Location.sub_y, Location.sub_x]
      omega
    · -- seam: first segment into the rest
      rw [List.head?_append, head?_map_intRange _ _ hy, Option.or_some]
      refine seam_of_last_head (getLast?_map_intRange _ _ hx) rfl ?_
      simp only [Location.distance_to, Location.norm, Location.sub_y, Location.sub_x]
      omega
  · -- wrap-around: last write of the lap to the first write of the next lap
    unfold circleLap
    rw [List.getLast?_append, List.getLast?_append, List.getLast?_append,
      getLast?_map_intRange _ _ hy, Option.or_some, Option.or_some, Option.or_some,
      List.head?_append, head?_map_intRange _ _ hx, Option.or_some]
    refine seam_of_last_head rfl rfl ?_
    simp only [Location.distance_to, Location.norm, Location.sub_y, Location.sub_x]
    omega

/-- Witness for C9 at the default circle size `(2, 2)` and origin `(0, 0)`. -/
theorem circle_single_step_witness :
    (0 : Int) < 2 ∧ (0 : Int) < 2 ∧
    (List.Chain' (fun a b => a.distance_to b ≤ 1) (circleLap ⟨0, 0⟩ ⟨2, 2⟩) ∧
      ∀ a ∈ (circleLap ⟨0, 0⟩ ⟨2, 2⟩).getLast?, ∀ b ∈ (circleLap ⟨0, 0⟩ ⟨2, 2⟩).head?,
        a.distance_to b ≤ 1) :=
  ⟨by decide, by decide, circle_single_step ⟨0, 0⟩ ⟨2, 2⟩ (by decide) (by decide)⟩

end Puddle
